import Mathlib

/-!
Shallow embedding of the sisyphus virtual file system (ev3go/sisyphus).

Strings are modelled as lists of characters (`Str`), Go byte slices as
lists of naturals together with an explicit logical length (the Go slice
length) over a backing store whose list length plays the role of the Go
slice capacity.  Fallible Go functions return `Except`/`Option`; an
`Option _` result where `none` marks a Go panic (out-of-range slicing or
a failed type assertion).  Go `int64` offsets are modelled as `Int`.
-/

deriving instance DecidableEq for Except

namespace Sisyphus

/-- Go strings, modelled as lists of characters. -/
abbrev Str := List Char

/-- The path separator character, `filepath.Separator` on Linux. -/
def sepChar : Char := '/'

/-- Error values that the modelled code can produce: `io.EOF`,
`syscall.EINVAL`, `syscall.ENOENT`, `syscall.ENOTDIR`, `syscall.EBADFD`
and the package's `ErrBadName`. -/
inductive Err where
  | eof
  | einval
  | enoent
  | enotdir
  | ebadfd
  | badName
deriving DecidableEq

/-- Model of `os.PathError`: operation name, path and wrapped error. -/
structure PathError where
  op : Str
  path : Str
  err : Err
deriving DecidableEq

/-- Model of `os.IsNotExist` applied to an optional path error: true
exactly when the wrapped error is `ENOENT`. -/
def isNotExist : Option PathError → Bool
  | none => false
  | some e => decide (e.err = Err.enoent)

/-- The growable byte buffer backend (Go type `Bytes`, a `[]byte`).
`store` is the backing array (its length is the Go slice capacity) and
`len` is the Go slice length. -/
structure Bytes where
  store : List Nat
  len : Nat
deriving DecidableEq

/-- The logical content of a `Bytes` buffer: the first `len` bytes of
the backing store (the bytes visible through the Go slice). -/
def Bytes.content (f : Bytes) : List Nat := f.store.take f.len

/-- Well-formedness of a `Bytes` value: the Go slice length never
exceeds the capacity. -/
def Bytes.wf (f : Bytes) : Prop := f.len ≤ f.store.length

/-- Model of `NewBytes`: a buffer backed by the provided data.  A Go
slice literal has capacity equal to its length. -/
def NewBytes (data : List Nat) : Bytes := ⟨data, data.length⟩

/-- Model of `Bytes.ReadAt`.  `count` is the length of the destination
slice `b`.  Mirrors the source: a zero-length request returns `(0, nil)`;
an offset at or past the length returns `io.EOF`; otherwise
`n := copy(b, (*f)[offset:])` bytes are produced and the (always true)
source test `n <= len(b)` selects `io.EOF`.  A negative offset reaching
the slice expression `(*f)[offset:]` panics in Go, modelled as `none`. -/
def Bytes.ReadAt (f : Bytes) (count : Nat) (off : Int) : Option (List Nat × Option Err) :=
  if count = 0 then some ([], none)
  else if (f.len : Int) ≤ off then some ([], some Err.eof)
  else if off < 0 then none
  else
    let bytes := (f.content.drop off.toNat).take count
    if bytes.length ≤ count then some (bytes, some Err.eof) else some (bytes, none)

/-- Model of `Bytes.WriteAt`.  When `off` is at or past the capacity the
source allocates `make([]byte, off+len(b))` (zero filled), copies the old
content in, reslices to `off` and appends `b`.  Otherwise it reslices the
existing array to `off` (a Go panic — `none` — when `off` is negative)
and appends: in place when `off+len(b)` fits the capacity, otherwise
through a reallocation.  Go leaves the capacity of that reallocation
implementation-defined; the model takes it to be exactly `off+len(b)`. -/
def Bytes.WriteAt (f : Bytes) (b : List Nat) (off : Int) : Option (Bytes × Nat × Option Err) :=
  if (f.store.length : Int) ≤ off then
    let o := off.toNat
    let t : List Nat := f.content ++ List.replicate (o + b.length - f.content.length) 0
    some (⟨t.take o ++ b ++ t.drop (o + b.length), o + b.length⟩, b.length, none)
  else if off < 0 then none
  else
    let o := off.toNat
    if o + b.length ≤ f.store.length then
      some (⟨f.store.take o ++ b ++ f.store.drop (o + b.length), o + b.length⟩, b.length, none)
    else
      some (⟨f.store.take o ++ b, o + b.length⟩, b.length, none)

/-- Model of `Bytes.Truncate`: `EINVAL` when `n` is negative or exceeds
the slice length; otherwise the tail of the backing array from `n` up to
the capacity is zeroed and the slice length becomes `n`. -/
def Bytes.Truncate (f : Bytes) (n : Int) : Except Err Bytes :=
  if n < 0 ∨ (f.len : Int) < n then Except.error Err.einval
  else
    let k := n.toNat
    Except.ok ⟨f.store.take k ++ List.replicate (f.store.length - k) 0, k⟩

/-- Model of `Bytes.Size`: the slice length and a nil error. -/
def Bytes.Size (f : Bytes) : Int × Option Err := ((f.len : Int), none)

/-- Model of `String.ReadAt` (the immutable string backend).  A negative
offset yields `EINVAL`; an offset at or past the length yields `io.EOF`;
otherwise `n := copy(b, s[off:])` bytes are produced and the (always
true) source test `n <= len(b)` selects `io.EOF`. -/
def stringReadAt (s : Str) (count : Nat) (off : Int) : List Char × Option Err :=
  if off < 0 then ([], some Err.einval)
  else if (s.length : Int) ≤ off then ([], some Err.eof)
  else
    let bytes := (s.drop off.toNat).take count
    if bytes.length ≤ count then (bytes, some Err.eof) else (bytes, none)

/-- Model of `String.Size`: the string length and a nil error. -/
def stringSize (s : Str) : Int × Option Err := ((s.length : Int), none)

/-! ## Attributes and the node tree -/

/-- Model of the node attribute record `attr` (mode, uid, gid and the
three timestamps; `time.Time` values are modelled as `Int`). -/
structure Attr where
  mode : Nat
  uid : Nat
  gid : Nat
  atime : Int
  mtime : Int
  ctime : Int
deriving DecidableEq

/-- The zero attribute record (Go zero value). -/
def Attr.zero : Attr := ⟨0, 0, 0, 0, 0, 0⟩

/-- Go `os.FileMode` bit constants used by the constructors. -/
def modeDir : Nat := 2 ^ 31

/-- Go `os.ModeSymlink`. -/
def modeSymlink : Nat := 2 ^ 27

/-- Go `os.ModeNamedPipe`. -/
def modeNamedPipe : Nat := 2 ^ 25

/-- Go `os.ModeSocket`. -/
def modeSocket : Nat := 2 ^ 24

/-- Go bit clear `x &^ m` on 32-bit file modes. -/
def andNot (x m : Nat) : Nat := x &&& ((2 ^ 32 - 1) ^^^ m)

/-- The data backend held by a file node: a growable buffer (`Bytes`),
an immutable string (`String`) or a callback function (`Func`, whose
behaviour is irrelevant to the tree-level claims). -/
inductive Dev where
  | bytes : Bytes → Dev
  | str : Str → Dev
  | fn : Dev
deriving DecidableEq

/-- The three file node kinds. -/
inductive FKind where
  | ro
  | wo
  | rw
deriving DecidableEq

mutual
/-- A node of the virtual tree: a directory (`Dir`) with its child map,
or a file node (`RO`/`WO`/`RW`) with its backend.  Each node stores its
name, its attribute record and its file system back-reference (`fs`
field in the source, `none` modelling a nil `*FileSystem`, `some i`
a pointer to the file system with identity `i`). -/
inductive Node where
  | dir : Str → Attr → Option Nat → Entries → Node
  | file : FKind → Str → Attr → Option Nat → Dev → Node

/-- The child map of a directory (`map[string]Node`), as an association
list with unique keys. -/
inductive Entries where
  | nil : Entries
  | cons : Str → Node → Entries → Entries
end

deriving instance DecidableEq for Node

deriving instance DecidableEq for Entries

/-- The name of a node (`Name()`). -/
def Node.name : Node → Str
  | .dir nm _ _ _ => nm
  | .file _ nm _ _ _ => nm

/-- The file system back-reference of a node (`Sys()`). -/
def Node.sysRef : Node → Option Nat
  | .dir _ _ r _ => r
  | .file _ _ _ r _ => r

/-- Whether the node is a directory (the Go type assertion `n.(*Dir)`
succeeds exactly on these nodes). -/
def Node.isDir : Node → Bool
  | .dir _ _ _ _ => true
  | .file _ _ _ _ _ => false

/-- The child map of a node; empty for file nodes (only ever consulted
on directories, matching the source where only `*Dir` has `files`). -/
def Node.childrenE : Node → Entries
  | .dir _ _ _ es => es
  | .file _ _ _ _ _ => .nil

/-- Map lookup `d.files[name]`. -/
def Entries.lookup : Entries → Str → Option Node
  | .nil, _ => none
  | .cons k v t, s => if k = s then some v else t.lookup s

/-- Map assignment `d.files[k] = v` (overwrites an existing key). -/
def Entries.insert : Entries → Str → Node → Entries
  | .nil, k, v => .cons k v .nil
  | .cons k' v' t, k, v => if k' = k then .cons k v t else .cons k' v' (t.insert k v)

/-- Map deletion `delete(d.files, k)`. -/
def Entries.erase : Entries → Str → Entries
  | .nil, _ => .nil
  | .cons k' v' t, k => if k' = k then t else .cons k' v' (t.erase k)

/-- Child lookup on a node's child map. -/
def lookupChild (n : Node) (s : Str) : Option Node := n.childrenE.lookup s

/-! ## Node constructors -/

/-- The directory root name `"/"`. -/
def rootName : Str := [sepChar]

/-- Model of `NewDir`: fails with `ErrBadName` when the name is not
`"/"` and contains the separator; the stored mode carries `os.ModeDir`
and has the symlink, named-pipe and socket bits cleared. -/
def NewDir (name : Str) (mode : Nat) : Except Err Node :=
  if name ≠ rootName ∧ sepChar ∈ name then Except.error Err.badName
  else Except.ok (Node.dir name
    { Attr.zero with mode := modeDir ||| andNot mode (modeSymlink ||| modeNamedPipe ||| modeSocket) }
    none Entries.nil)

/-- Model of `NewRO`: fails with `ErrBadName` when the name contains the
separator; the stored mode has the directory bit and all write
permission bits (`0222`) cleared. -/
def NewRO (name : Str) (mode : Nat) (dev : Dev) : Except Err Node :=
  if sepChar ∈ name then Except.error Err.badName
  else Except.ok (Node.file FKind.ro name
    { Attr.zero with mode := andNot mode (modeDir ||| 0o222) } none dev)

/-- Model of `NewRW`: fails with `ErrBadName` when the name contains the
separator; the stored mode has the directory bit cleared. -/
def NewRW (name : Str) (mode : Nat) (dev : Dev) : Except Err Node :=
  if sepChar ∈ name then Except.error Err.badName
  else Except.ok (Node.file FKind.rw name
    { Attr.zero with mode := andNot mode modeDir } none dev)

/-- Model of `NewWO`: the source performs no name validation and cannot
fail — it returns a `*WO` directly; the stored mode has the directory
bit and all read permission bits (`0444`) cleared. -/
def NewWO (name : Str) (mode : Nat) (dev : Dev) : Node :=
  Node.file FKind.wo name
    { Attr.zero with mode := andNot mode (modeDir ||| 0o444) } none dev

/-! ## Paths -/

/-- `strings.Split` on the separator character: splits into the (always
nonempty) list of components between separators. -/
def splitSep : Str → List Str
  | [] => [[]]
  | c :: cs =>
    match splitSep cs with
    | [] => [[]]
    | hd :: tl => if c = sepChar then [] :: hd :: tl else (c :: hd) :: tl

/-- Join components with the separator (inverse of `splitSep`), used to
rebuild a cleaned path from its retained components. -/
def joinSep : List Str → Str
  | [] => []
  | [p] => p
  | p :: ps => p ++ sepChar :: joinSep ps

/-- One step of `path/filepath.Clean` over the already-split components:
empty and `"."` components are dropped; `".."` pops the last retained
component when one is poppable (`acc` longer than the `dd` leading
`".."` components), accumulates on an unrooted path, and is dropped at
the root of a rooted path; any other component is retained. -/
def cleanParts (rooted : Bool) : List Str → List Str → Nat → List Str
  | [], acc, _ => acc
  | p :: ps, acc, dd =>
    if p = ([] : Str) ∨ p = ['.'] then cleanParts rooted ps acc dd
    else if p = ['.', '.'] then
      if acc.length > dd then cleanParts rooted ps acc.dropLast dd
      else if rooted then cleanParts rooted ps acc dd
      else cleanParts rooted ps (acc ++ [p]) (acc.length + 1)
    else cleanParts rooted ps (acc ++ [p]) dd

/-- Model of the Go standard library's `path/filepath.Clean` (an
external collaborator of the source, modelled from its documented
lexical cleaning semantics): iteratively drops `"."` and empty
components, resolves `".."`, keeps a leading `"/"`, and returns `"."`
for an empty result. -/
def clean (path : Str) : Str :=
  if path = ([] : Str) then ['.']
  else
    let rooted := path.head? = some sepChar
    let parts := cleanParts rooted (splitSep path) [] 0
    let out := (if rooted then [sepChar] else []) ++ joinSep parts
    if out = ([] : Str) then ['.'] else out

/-- Model of `path/filepath.Split`: splits after the final separator
into a directory part (with trailing separator) and a file name part. -/
def splitPath (path : Str) : Str × Str :=
  match path.reverse.span (fun c => c != sepChar) with
  | (revName, revDir) => (revDir.reverse, revName.reverse)

/-- Model of `pathElements`: `strings.Split(filepath.Clean(path), "/")`
without its first component, and nil when the remainder is the single
empty component (the root path). -/
def pathElements (path : Str) : List Str :=
  let e := (splitSep (clean path)).drop 1
  match e with
  | [x] => if x.length = 0 then [] else e
  | _ => e

/-- The loop of `walkPath` over the element list.  Result: resolved node
(when any) paired with the error (when any); a terminal miss returns the
containing directory together with `ENOENT`. -/
def walkElems (d : Node) (op path : Str) : List Str → Option Node × Option PathError
  | [] => (some d, none)
  | e :: rest =>
    match lookupChild d e with
    | none =>
      match rest with
      | [] => (some d, some ⟨op, path, Err.enoent⟩)
      | _ => (none, some ⟨op, path, Err.enoent⟩)
    | some n =>
      match rest with
      | [] => (some n, none)
      | _ => if n.isDir then walkElems n op path rest else (none, some ⟨op, path, Err.enotdir⟩)

/-- Model of `walkPath`: resolve `path` from the directory `d`. -/
def walkPath (d : Node) (op path : Str) : Option Node × Option PathError :=
  walkElems d op path (pathElements path)

/-! ## The file system, sync, bind and unbind -/

/-- The attribute update performed by `SetSys`: `ctime`, `atime` and
`mtime` are stamped with `filesys.now()` when the new reference is a
live file system and with the zero `time.Time` otherwise. -/
def stampSetSys (a : Attr) (r : Option Nat) (clk : Int) : Attr :=
  let now := match r with
    | some _ => clk
    | none => 0
  { a with atime := now, mtime := now, ctime := now }

mutual
/-- Model of `(*FileSystem).sync` restricted to one node: when the
node's back-reference differs from the syncing file system it is rebound
through `SetSys`, which stores the reference and stamps all three
timestamps from the file system clock (`clk`; the zero time when the
receiver is the nil file system `nofs`); directory children are then
synced recursively. -/
def syncN (r : Option Nat) (clk : Int) : Node → Node
  | .file k nm a ref d =>
    if ref ≠ r then .file k nm (stampSetSys a r clk) r d
    else .file k nm a ref d
  | .dir nm a ref es =>
    if ref ≠ r then .dir nm (stampSetSys a r clk) r (syncE r clk es)
    else .dir nm a ref (syncE r clk es)

/-- `sync` over a directory's child map. -/
def syncE (r : Option Nat) (clk : Int) : Entries → Entries
  | .nil => .nil
  | .cons s n t => .cons s (syncN r clk n) (syncE r clk t)
end

mutual
/-- Whether every node of the subtree has back-reference `r`. -/
def allRefsN (r : Option Nat) : Node → Bool
  | .file _ _ _ ref _ => decide (ref = r)
  | .dir _ _ ref es => decide (ref = r) && allRefsE r es

/-- `allRefsN` over a child map. -/
def allRefsE (r : Option Nat) : Entries → Bool
  | .nil => true
  | .cons _ n t => allRefsN r n && allRefsE r t
end

/-- Model of the `FileSystem` struct: an identity standing for the Go
pointer, the injected clock's current value, and the root directory. -/
structure FS where
  id : Nat
  clk : Int
  root : Node
deriving DecidableEq

/-- Model of `(*FileSystem).Sync`: sync the whole tree from the root
against this file system. -/
def FS.Sync (fs : FS) : FS :=
  { fs with root := syncN (some fs.id) fs.clk fs.root }

/-- Apply `f` to the value stored at key `k` of a child map. -/
def Entries.mapAt (es : Entries) (k : Str) (f : Node → Node) : Entries :=
  match es with
  | .nil => .nil
  | .cons k' v t => if k' = k then .cons k' (f v) t else .cons k' v (t.mapAt k f)

/-- Apply `f` to the subtree rooted at the directory reached by the
element path `elems` (the pure-state counterpart of mutating, through a
pointer obtained from `walkPath`, the directory held inside the tree). -/
def updateAt (f : Node → Node) : List Str → Node → Node
  | [], n => f n
  | e :: rest, n =>
    match n with
    | .dir nm a r es => .dir nm a r (es.mapAt e (updateAt f rest))
    | other => other

/-- The operation string `"unbind"`. -/
def unbindOp : Str := ['u', 'n', 'b', 'i', 'n', 'd']

/-- The operation string `"open"` (used by `bind`). -/
def openOp : Str := ['o', 'p', 'e', 'n']

/-- Model of `(*FileSystem).Unbind`.  The source's root guard is
`len(path) == 0 && path[0] == filepath.Separator`: when the cleaned path
were empty the second operand would index an empty string and panic
(`none`), and otherwise the conjunction is false, so the guard never
produces its `EINVAL`.  The path is then split into directory and leaf;
the directory is resolved (errors propagate), the resolved node is
asserted to be a directory (a Go panic — `none` — otherwise), the leaf
is looked up (`ENOENT` when absent) and removed, and the detached node
is synced against the nil file system `nofs` before being returned. -/
def FS.Unbind (fs : FS) (p : Str) : Option (Except PathError (Node × FS)) :=
  let path := clean p
  match path with
  | [] => none
  | _ :: _ =>
    let dn := splitPath path
    match walkPath fs.root unbindOp dn.1 with
    | (_, some e) => some (Except.error e)
    | (some d, none) =>
      if d.isDir then
        match lookupChild d dn.2 with
        | none => some (Except.error ⟨unbindOp, path, Err.enoent⟩)
        | some node =>
          let eraseLeaf : Node → Node := fun m =>
            match m with
            | .dir nm a r es => .dir nm a r (es.erase dn.2)
            | other => other
          let root' := updateAt eraseLeaf (pathElements dn.1) fs.root
          some (Except.ok (syncN none 0 node, { fs with root := root' }))
      else none
    | (none, none) => none

/-- Model of `(*FileSystem).bind` (the body of `Bind`): clean the
directory path, resolve it, convert a `NotExist` resolution failure into
a fresh `ENOENT` path error, assert the resolved node to be a directory
(a Go panic — `none` — when the resolution produced a file, or a nil
node alongside a non-`ENOENT` error such as `ENOTDIR`), insert the node
into the directory's child map under its own name, and sync the freshly
extended subtree against this file system. -/
def FS.Bind (fs : FS) (dirPath : Str) (n : Node) : Option (Except PathError FS) :=
  let dir := clean dirPath
  let res := walkPath fs.root openOp dir
  if isNotExist res.2 then some (Except.error ⟨openOp, dir, Err.enoent⟩)
  else
    match res.1 with
    | some d =>
      if d.isDir then
        let insertAndSync : Node → Node := fun m =>
          match m with
          | .dir nm a r es => syncN (some fs.id) fs.clk (.dir nm a r (es.insert n.name n))
          | other => other
        let root' := updateAt insertAndSync (pathElements dir) fs.root
        some (Except.ok { fs with root := root' })
      else none
    | none => none

/-! ## Setattr -/

/-- The bazil `fuse.SetattrValid` bits consulted by the source. -/
def setattrModeBit : Nat := 1

/-- `fuse.SetattrUid`. -/
def setattrUidBit : Nat := 2

/-- `fuse.SetattrGid`. -/
def setattrGidBit : Nat := 4

/-- `fuse.SetattrSize`. -/
def setattrSizeBit : Nat := 8

/-- `fuse.SetattrAtime`. -/
def setattrAtimeBit : Nat := 16

/-- `fuse.SetattrMtime`. -/
def setattrMtimeBit : Nat := 32

/-- Model of `fuse.SetattrRequest`: the validity mask and the carried
field values (`Size` is a Go `uint64`). -/
structure SetattrRequest where
  valid : Nat
  mode : Nat
  uid : Nat
  gid : Nat
  atime : Int
  mtime : Int
  size : Nat
deriving DecidableEq

/-- Model of the attribute record inside `fuse.SetattrResponse`. -/
structure RespAttr where
  mode : Nat
  uid : Nat
  gid : Nat
  atime : Int
  mtime : Int
  size : Nat
deriving DecidableEq

/-- The Go conversion `int64(x)` of a `uint64` value. -/
def int64OfUint64 (x : Nat) : Int :=
  if x < 2 ^ 63 then (x : Int) else (x : Int) - 2 ^ 64

/-- Model of `setAttr`: merge the request fields flagged valid (mode,
uid, gid, atime, mtime — never size or ctime) into the stored attribute
record, mirroring each applied field into the response record. -/
def setAttr (dst : Attr) (resp : RespAttr) (src : SetattrRequest) : Attr × RespAttr :=
  let s1 : Attr × RespAttr :=
    if src.valid &&& setattrModeBit ≠ 0 then
      ({ dst with mode := src.mode }, { resp with mode := src.mode })
    else (dst, resp)
  let s2 : Attr × RespAttr :=
    if src.valid &&& setattrUidBit ≠ 0 then
      ({ s1.1 with uid := src.uid }, { s1.2 with uid := src.uid })
    else s1
  let s3 : Attr × RespAttr :=
    if src.valid &&& setattrGidBit ≠ 0 then
      ({ s2.1 with gid := src.gid }, { s2.2 with gid := src.gid })
    else s2
  let s4 : Attr × RespAttr :=
    if src.valid &&& setattrAtimeBit ≠ 0 then
      ({ s3.1 with atime := src.atime }, { s3.2 with atime := src.atime })
    else s3
  if src.valid &&& setattrMtimeBit ≠ 0 then
    ({ s4.1 with mtime := src.mtime }, { s4.2 with mtime := src.mtime })
  else s4

/-- The state of a read-write file node relevant to `Setattr`: its
attribute record and its `ReadWriter` backend (`Bytes`, the repository's
only `ReadWriter`). -/
structure RWState where
  attr : Attr
  dev : Bytes
deriving DecidableEq

/-- The outcome of a `Setattr` call: the returned error (when any), the
node state after the call and the response record after the call. -/
structure SetattrOutcome where
  err : Option Err
  state : RWState
  resp : RespAttr
deriving DecidableEq

/-- Model of `(*RW).Setattr`: when the request carries a size, truncate
the backend (returning its failure before any field is merged) and
re-query the size into the response; then merge the remaining requested
fields through `setAttr`. -/
def rwSetattr (st : RWState) (req : SetattrRequest) (resp : RespAttr) : SetattrOutcome :=
  if req.valid &&& setattrSizeBit ≠ 0 then
    match st.dev.Truncate (int64OfUint64 req.size) with
    | Except.error e => ⟨some e, st, resp⟩
    | Except.ok dev' =>
      match (Bytes.Size dev').2 with
      | some e => ⟨some e, { st with dev := dev' }, resp⟩
      | none =>
        let resp1 := { resp with size := (Bytes.Size dev').1.toNat }
        let m := setAttr st.attr resp1 req
        ⟨none, { attr := m.1, dev := dev' }, m.2⟩
  else
    let m := setAttr st.attr resp req
    ⟨none, { st with attr := m.1 }, m.2⟩

/-- The `Writer` backend of a write-only file node: the repository's
`Writer` implementations are `Bytes` and `Func` (whose `Truncate` is a
no-op and whose `Size` is constantly zero). -/
inductive WDev where
  | bytes : Bytes → WDev
  | fn : WDev
deriving DecidableEq

/-- `Truncate` dispatched over a `Writer` backend. -/
def WDev.Truncate (d : WDev) (n : Int) : Except Err WDev :=
  match d with
  | .bytes b => (b.Truncate n).map WDev.bytes
  | .fn => Except.ok .fn

/-- `Size` dispatched over a `Writer` backend. -/
def WDev.Size (d : WDev) : Int × Option Err :=
  match d with
  | .bytes b => b.Size
  | .fn => (0, none)

/-- The state of a write-only file node relevant to `Setattr`. -/
structure WOState where
  attr : Attr
  dev : WDev
deriving DecidableEq

/-- The outcome of a `(*WO).Setattr` call. -/
structure WOSetattrOutcome where
  err : Option Err
  state : WOState
  resp : RespAttr
deriving DecidableEq

/-- Model of `(*WO).Setattr` (its body is identical to `(*RW).Setattr`
up to the backend interface). -/
def woSetattr (st : WOState) (req : SetattrRequest) (resp : RespAttr) : WOSetattrOutcome :=
  if req.valid &&& setattrSizeBit ≠ 0 then
    match st.dev.Truncate (int64OfUint64 req.size) with
    | Except.error e => ⟨some e, st, resp⟩
    | Except.ok dev' =>
      match dev'.Size.2 with
      | some e => ⟨some e, { st with dev := dev' }, resp⟩
      | none =>
        let resp1 := { resp with size := dev'.Size.1.toNat }
        let m := setAttr st.attr resp1 req
        ⟨none, { attr := m.1, dev := dev' }, m.2⟩
  else
    let m := setAttr st.attr resp req
    ⟨none, { st with attr := m.1 }, m.2⟩

/-! ## Concrete sample trees used by closed evaluations -/

/-- Whether an `Except`-returning constructor succeeded. -/
def exOk : Except Err Node → Bool
  | Except.ok _ => true
  | Except.error _ => false

/-- A sample read-write file node named `f`. -/
def demoFile : Node := Node.file FKind.rw ['f'] Attr.zero none (Dev.bytes (NewBytes []))

/-- A sample root directory holding the single file `f`. -/
def demoRoot : Node :=
  Node.dir rootName Attr.zero (some 1) (Entries.cons ['f'] demoFile Entries.nil)

/-- A sample file system over `demoRoot`. -/
def demoFS : FS := ⟨1, 5, demoRoot⟩

/-- A sample read-write file node already bound to file system 1. -/
def demoFileBound : Node :=
  Node.file FKind.rw ['f'] Attr.zero (some 1) (Dev.bytes (NewBytes []))

/-- A sample file system whose back-references are all consistent. -/
def demoFSBound : FS :=
  ⟨1, 5, Node.dir rootName Attr.zero (some 1) (Entries.cons ['f'] demoFileBound Entries.nil)⟩

end Sisyphus

namespace Sisyphus

/-! ## Helper lemmas -/

mutual
theorem allRefs_syncN (r : Option Nat) (clk : Int) :
    (n : Node) → allRefsN r (syncN r clk n) = true
  | Node.file k nm a ref d => by
    by_cases h : ref = r <;> simp [syncN, allRefsN, h]
  | Node.dir nm a ref es => by
    by_cases h : ref = r <;>
      simp [syncN, allRefsN, h, allRefs_syncE r clk es]

theorem allRefs_syncE (r : Option Nat) (clk : Int) :
    (es : Entries) → allRefsE r (syncE r clk es) = true
  | Entries.nil => by simp [syncE, allRefsE]
  | Entries.cons s n t => by
    simp [syncE, allRefsE, allRefs_syncN r clk n, allRefs_syncE r clk t]
end

mutual
theorem sync_consistentN (r : Option Nat) (clk : Int) :
    (n : Node) → allRefsN r n = true → syncN r clk n = n
  | Node.file k nm a ref d, h => by
    simp only [allRefsN, decide_eq_true_eq] at h
    simp [syncN, h]
  | Node.dir nm a ref es, h => by
    simp only [allRefsN, Bool.and_eq_true, decide_eq_true_eq] at h
    simp [syncN, h.1, sync_consistentE r clk es h.2]

theorem sync_consistentE (r : Option Nat) (clk : Int) :
    (es : Entries) → allRefsE r es = true → syncE r clk es = es
  | Entries.nil, _ => rfl
  | Entries.cons s n t, h => by
    simp only [allRefsE, Bool.and_eq_true] at h
    simp [syncE, sync_consistentN r clk n h.1, sync_consistentE r clk t h.2]
end

/-- Reading exactly the middle section of a well-formed buffer returns
that section: the section's length is requested at the offset right
after the prefix. -/
theorem bytes_readAt_middle (pre mid post : List Nat) :
    ((Bytes.mk (pre ++ (mid ++ post)) (pre.length + (mid.length + post.length))).ReadAt
        mid.length (pre.length : Int)).map Prod.fst = some mid := by
  rcases Nat.eq_zero_or_pos mid.length with hm | hm
  · have hmid : mid = [] := List.length_eq_zero.mp hm
    subst hmid
    simp [Bytes.ReadAt]
  · have hcnt : mid.length ≠ 0 := Nat.pos_iff_ne_zero.mp hm
    have hlen : (pre ++ (mid ++ post)).length = pre.length + (mid.length + post.length) := by
      simp
    unfold Bytes.ReadAt
    rw [if_neg hcnt]
    rw [if_neg (by push_cast; omega : ¬ ((pre.length + (mid.length + post.length) : Nat) : Int) ≤ (pre.length : Int))]
    rw [if_neg (by omega : ¬ ((pre.length : Int) < 0))]
    have hcont : (Bytes.mk (pre ++ (mid ++ post)) (pre.length + (mid.length + post.length))).content
        = pre ++ (mid ++ post) := by
      show (pre ++ (mid ++ post)).take (pre.length + (mid.length + post.length)) = _
      rw [← hlen, List.take_length]
    rw [hcont]
    have hto : ((pre.length : Int)).toNat = pre.length := by omega
    rw [hto, List.drop_left, List.take_left]
    rw [if_pos (le_refl mid.length)]
    simp

/-! ## Claims -/

/-- C6: after running `Sync`, every node reachable from the root has its
file system back-reference equal to the file system that ran `Sync`;
after a successful `Unbind`, the detached node together with every node
of its subtree has its back-reference cleared to nil. -/
theorem c6_backrefs :
    (∀ fs : FS, allRefsN (some fs.id) fs.Sync.root = true)
    ∧ (∀ (fs : FS) (p : Str) (n : Node) (fs' : FS),
        fs.Unbind p = some (Except.ok (n, fs')) → allRefsN none n = true) := by
  constructor
  · intro fs
    exact allRefs_syncN _ _ _
  · intro fs p n fs' h
    simp only [FS.Unbind] at h
    split at h
    · exact absurd h (by simp)
    · split at h
      · exact absurd h (by simp)
      · split at h
        · split at h
          · exact absurd h (by simp)
          · simp only [Option.some.injEq, Except.ok.injEq, Prod.mk.injEq] at h
            first
            | exact allRefs_syncN _ _ _
            | · obtain ⟨h1, -⟩ := h
                subst h1
                exact allRefs_syncN _ _ _
        · exact absurd h (by simp)
      · exact absurd h (by simp)

/-- C6 witness: a concrete `Sync` pass and a concrete successful
`Unbind` whose detached node has a cleared back-reference. -/
theorem c6_backrefs_witness :
    allRefsN (some demoFS.id) demoFS.Sync.root = true
    ∧ allRefsN none (syncN none 0 demoFile) = true := by
  refine ⟨c6_backrefs.1 demoFS, ?_⟩
  have h : demoFS.Unbind ['/', 'f']
      = some (Except.ok (syncN none 0 demoFile,
        FS.mk 1 5 (Node.dir rootName Attr.zero (some 1) Entries.nil))) := by
    decide
  exact c6_backrefs.2 demoFS ['/', 'f'] (syncN none 0 demoFile) _ h

/-- C7: `Sync` is idempotent — on a tree whose back-references already
all equal the file system, `Sync` rebinds no node and changes nothing
(in particular it stamps no timestamps), and a second `Sync` pass right
after a first one is the identity. -/
theorem c7_sync_idempotent (fs : FS) :
    (allRefsN (some fs.id) fs.root = true → fs.Sync = fs)
    ∧ fs.Sync.Sync = fs.Sync := by
  have key : ∀ g : FS, allRefsN (some g.id) g.root = true → g.Sync = g := by
    intro g hg
    show { g with root := syncN (some g.id) g.clk g.root } = g
    rw [sync_consistentN _ _ _ hg]
  exact ⟨key fs, key fs.Sync (allRefs_syncN (some fs.id) fs.clk fs.root)⟩

/-- C1 counterexample: the write-only constructor `NewWO` performs no
name validation at all — applied to the separator-containing name
`"a/b"` it succeeds and returns a node carrying that name (its Go
signature has no error result, so it can never fail with `BadName`). -/
theorem c1_name_check_counterexample :
    (NewWO ['a', '/', 'b'] 146 Dev.fn).name = ['a', '/', 'b']
    ∧ sepChar ∈ (['a', '/', 'b'] : Str) := by decide

/-- C1 amended: for the directory, read-only and read-write
constructors, construction succeeds exactly when the name contains no
separator (directories additionally exempting the root name `"/"`) and
otherwise fails with `BadName`; the write-only constructor `NewWO`
performs no validation and always succeeds, returning a node with the
given name. -/
theorem c1_name_validation (name : Str) (mode : Nat) (dev : Dev) :
    (sepChar ∈ name → name ≠ rootName → NewDir name mode = Except.error Err.badName)
    ∧ (sepChar ∉ name → exOk (NewDir name mode) = true)
    ∧ (exOk (NewDir rootName mode) = true)
    ∧ (sepChar ∈ name → NewRO name mode dev = Except.error Err.badName)
    ∧ (sepChar ∉ name → exOk (NewRO name mode dev) = true)
    ∧ (sepChar ∈ name → NewRW name mode dev = Except.error Err.badName)
    ∧ (sepChar ∉ name → exOk (NewRW name mode dev) = true)
    ∧ (NewWO name mode dev).name = name := by
  refine ⟨?_, ?_, ?_, ?_, ?_, ?_, ?_, rfl⟩
  · intro hm hr
    simp [NewDir, hm, hr]
  · intro hm
    simp [NewDir, exOk, hm]
  · simp [NewDir, exOk, rootName]
  · intro hm
    simp [NewRO, hm]
  · intro hm
    simp [NewRO, exOk, hm]
  · intro hm
    simp [NewRW, hm]
  · intro hm
    simp [NewRW, exOk, hm]

/-- C1 witness: the validation rules evaluated at the concrete names
`"a/b"` (separator) and `"ab"` (no separator). -/
theorem c1_name_validation_witness :
    NewDir ['a', '/', 'b'] 509 = Except.error Err.badName
    ∧ exOk (NewDir ['a', 'b'] 509) = true
    ∧ NewRO ['a', '/', 'b'] 438 Dev.fn = Except.error Err.badName
    ∧ exOk (NewRO ['a', 'b'] 438 Dev.fn) = true
    ∧ NewRW ['a', '/', 'b'] 438 Dev.fn = Except.error Err.badName
    ∧ exOk (NewRW ['a', 'b'] 438 Dev.fn) = true :=
  ⟨(c1_name_validation ['a', '/', 'b'] 509 Dev.fn).1 (by decide) (by decide),
   (c1_name_validation ['a', 'b'] 509 Dev.fn).2.1 (by decide),
   (c1_name_validation ['a', '/', 'b'] 438 Dev.fn).2.2.2.1 (by decide),
   (c1_name_validation ['a', 'b'] 438 Dev.fn).2.2.2.2.1 (by decide),
   (c1_name_validation ['a', '/', 'b'] 438 Dev.fn).2.2.2.2.2.1 (by decide),
   (c1_name_validation ['a', 'b'] 438 Dev.fn).2.2.2.2.2.2.1 (by decide)⟩

/-- C2: evaluating `Unbind` at the root path `"/"` on a concrete file
system.  The source's root guard `len(path) == 0 && path[0] == '/'` can
never fire on a cleaned path, so instead of the claimed
`InvalidArgument` the call falls through, looks up the empty leaf name
in the root directory and fails with `NotExist`. -/
theorem c2_unbind_root_eval :
    demoFS.Unbind ['/'] = some (Except.error ⟨unbindOp, ['/'], Err.enoent⟩)
    ∧ Err.enoent ≠ Err.einval := by decide

/-- C5: path resolution over the element sequence of a cleaned path —
an empty sequence resolves to the starting directory with no error; a
missing non-terminal element fails with `NotExist` and no node; a
non-terminal element resolving to a non-directory fails with
`NotADirectory`; a missing terminal element fails with `NotExist` while
still returning the containing directory. -/
theorem c5_walk_resolution (d : Node) (op path : Str) :
    (walkElems d op path [] = (some d, none))
    ∧ (∀ e r rest, lookupChild d e = none →
        walkElems d op path (e :: r :: rest) = (none, some ⟨op, path, Err.enoent⟩))
    ∧ (∀ e n r rest, lookupChild d e = some n → n.isDir = false →
        walkElems d op path (e :: r :: rest) = (none, some ⟨op, path, Err.enotdir⟩))
    ∧ (∀ e, lookupChild d e = none →
        walkElems d op path [e] = (some d, some ⟨op, path, Err.enoent⟩)) := by
  refine ⟨rfl, ?_, ?_, ?_⟩
  · intro e r rest h
    simp [walkElems, h]
  · intro e n r rest h hd
    simp [walkElems, h, hd]
  · intro e h
    simp [walkElems, h]

/-- C5 witness: the four resolution outcomes evaluated on a concrete
directory. -/
theorem c5_walk_resolution_witness :
    walkElems demoRoot [] [] [] = (some demoRoot, none)
    ∧ walkElems demoRoot [] [] [['x'], ['y']] = (none, some ⟨[], [], Err.enoent⟩)
    ∧ walkElems demoRoot [] [] [['f'], ['y']] = (none, some ⟨[], [], Err.enotdir⟩)
    ∧ walkElems demoRoot [] [] [['x']] = (some demoRoot, some ⟨[], [], Err.enoent⟩) :=
  ⟨(c5_walk_resolution demoRoot [] []).1,
   (c5_walk_resolution demoRoot [] []).2.1 ['x'] ['y'] [] (by decide),
   (c5_walk_resolution demoRoot [] []).2.2.1 ['f'] demoFile ['y'] [] (by decide) (by decide),
   (c5_walk_resolution demoRoot [] []).2.2.2 ['x'] (by decide)⟩

/-- C9: evaluating `bind` where the terminal path element resolves to a
file (`"/f"`), and where a non-terminal element is a file (`"/f/x"`,
giving a `NotADirectory` resolution error that is not `NotExist`).  In
both cases the unchecked type assertion `d.(*Dir)` panics (modelled as
`none`) instead of returning an error. -/
theorem c9_bind_panic_eval :
    demoFS.Bind ['/', 'f'] demoFile = none
    ∧ demoFS.Bind ['/', 'f', '/', 'x'] demoFile = none := by decide

/-- C3 counterexample: a read lying strictly inside the data — one byte
at offset 0 of a three-byte backend, ending two bytes before the last
byte — still returns the end-of-data signal on both the growable-buffer
and the immutable-string backend, contradicting the claim that such a
read carries no signal. -/
theorem c3_eof_counterexample :
    NewBytes [10, 20, 30] = Bytes.mk [10, 20, 30] 3
    ∧ (Bytes.mk [10, 20, 30] 3).ReadAt 1 0 = some ([10], some Err.eof)
    ∧ stringReadAt ['a', 'b', 'c'] 1 0 = (['a'], some Err.eof) := by decide

/-- C3 amended: both backends return the bytes from the requested
offset truncated to the request, and report the end-of-data signal on
every read with a positive request length at a valid offset — also when
the read ends strictly before the last byte; only a zero-length request
on the growable buffer carries no signal, and a negative offset on the
immutable string yields `EINVAL`. -/
theorem c3_read_eof (f : Bytes) (s : Str) (count : Nat) (off : Int) :
    (count = 0 → f.ReadAt count off = some ([], none))
    ∧ (count ≠ 0 → (f.len : Int) ≤ off → f.ReadAt count off = some ([], some Err.eof))
    ∧ (count ≠ 0 → 0 ≤ off → off < (f.len : Int) →
        f.ReadAt count off = some ((f.content.drop off.toNat).take count, some Err.eof))
    ∧ (off < 0 → stringReadAt s count off = ([], some Err.einval))
    ∧ (0 ≤ off → (s.length : Int) ≤ off → stringReadAt s count off = ([], some Err.eof))
    ∧ (0 ≤ off → off < (s.length : Int) →
        stringReadAt s count off = ((s.drop off.toNat).take count, some Err.eof)) := by
  refine ⟨?_, ?_, ?_, ?_, ?_, ?_⟩
  · intro h
    simp [Bytes.ReadAt, h]
  · intro h1 h2
    simp [Bytes.ReadAt, h1, h2]
  · intro h1 h2 h3
    have h4 : ¬ ((f.len : Int) ≤ off) := not_le.mpr h3
    have h5 : ¬ (off < 0) := not_lt.mpr h2
    simp [Bytes.ReadAt, h1, h4, h5, List.length_take]
  · intro h
    simp [stringReadAt, h]
  · intro h1 h2
    have h3 : ¬ (off < 0) := not_lt.mpr h1
    simp [stringReadAt, h2, h3]
  · intro h1 h2
    have h3 : ¬ (off < 0) := not_lt.mpr h1
    have h4 : ¬ ((s.length : Int) ≤ off) := not_le.mpr h2
    simp [stringReadAt, h3, h4, List.length_take]

/-- C3 witness: the six read outcomes evaluated at concrete inputs. -/
theorem c3_read_eof_witness :
    (Bytes.mk [1, 2, 3] 3).ReadAt 0 9 = some ([], none)
    ∧ (Bytes.mk [1, 2, 3] 3).ReadAt 2 3 = some ([], some Err.eof)
    ∧ (Bytes.mk [1, 2, 3] 3).ReadAt 2 1 = some ([2, 3], some Err.eof)
    ∧ stringReadAt ['a'] 1 (-1) = ([], some Err.einval)
    ∧ stringReadAt ['a'] 1 1 = ([], some Err.eof)
    ∧ stringReadAt ['a', 'b'] 1 0 = (['a'], some Err.eof) :=
  ⟨(c3_read_eof (Bytes.mk [1, 2, 3] 3) [] 0 9).1 rfl,
   (c3_read_eof (Bytes.mk [1, 2, 3] 3) [] 2 3).2.1 (by decide) (by decide),
   (c3_read_eof (Bytes.mk [1, 2, 3] 3) [] 2 1).2.2.1 (by decide) (by decide) (by decide),
   (c3_read_eof (Bytes.mk [] 0) ['a'] 1 (-1)).2.2.2.1 (by decide),
   (c3_read_eof (Bytes.mk [] 0) ['a'] 1 1).2.2.2.2.1 (by decide) (by decide),
   (c3_read_eof (Bytes.mk [] 0) ['a', 'b'] 1 0).2.2.2.2.2 (by decide) (by decide)⟩

/-- C4 counterexample: from the reachable state obtained by backing a
buffer with five bytes and overwriting the first byte (length 1,
capacity 5), a write at offset 3 — strictly beyond the length 1 but
within the capacity — leaves the stale bytes 2 and 3 in the gap, so the
subsequent read over the gap region returns `[2, 3]`, not zero bytes. -/
theorem c4_gap_counterexample :
    NewBytes [1, 2, 3, 4, 5] = Bytes.mk [1, 2, 3, 4, 5] 5
    ∧ (Bytes.mk [1, 2, 3, 4, 5] 5).WriteAt [9] 0 = some (Bytes.mk [9, 2, 3, 4, 5] 1, 1, none)
    ∧ (Bytes.mk [9, 2, 3, 4, 5] 1).len = 1
    ∧ (Bytes.mk [9, 2, 3, 4, 5] 1).WriteAt [7] 3 = some (Bytes.mk [9, 2, 3, 7, 5] 4, 1, none)
    ∧ (Bytes.mk [9, 2, 3, 7, 5] 4).ReadAt 2 1 = some ([2, 3], some Err.eof)
    ∧ ([2, 3] : List Nat) ≠ [0, 0] := by decide

/-- C4 amended: writing at an offset at or beyond the buffer's current
capacity (the reallocating branch of `WriteAt`) zero-extends, so reading
the region between the old length and the write offset then returns
zero bytes, and reading at the write offset returns the written bytes;
when the offset lies beyond the length but within the capacity the gap
instead exposes whatever bytes the backing array already held there. -/
theorem c4_gap_zero_fill (f : Bytes) (b : List Nat) (off : Int)
    (hwf : f.wf) (hcap : (f.store.length : Int) ≤ off) :
    ∃ f' : Bytes,
      f.WriteAt b off = some (f', b.length, none)
      ∧ f'.content = f.content ++ (List.replicate (off.toNat - f.len) 0 ++ b)
      ∧ (f'.ReadAt (off.toNat - f.len) (f.len : Int)).map Prod.fst
          = some (List.replicate (off.toNat - f.len) 0)
      ∧ (f'.ReadAt b.length off).map Prod.fst = some b := by
  have hwf' : f.len ≤ f.store.length := hwf
  have h0 : (0 : Int) ≤ off := le_trans (Int.ofNat_nonneg _) hcap
  have hoff : ((off.toNat : Nat) : Int) = off := Int.toNat_of_nonneg h0
  have hcap' : f.store.length ≤ off.toNat := by omega
  have hcontent : f.content.length = f.len := by
    simp only [Bytes.content, List.length_take]
    exact inf_eq_left.mpr hwf'
  have hlen_o : f.len ≤ off.toNat := le_trans hwf' hcap'
  simp only [Bytes.WriteAt, if_pos hcap]
  have htake : (f.content ++ List.replicate (off.toNat + b.length - f.content.length) 0).take off.toNat
      = f.content ++ List.replicate (off.toNat - f.len) 0 := by
    rw [List.take_append_eq_append_take, List.take_of_length_le (by omega), List.take_replicate,
      hcontent]
    congr 2
    exact inf_eq_left.mpr (by omega)
  have hdrop : (f.content ++ List.replicate (off.toNat + b.length - f.content.length) 0).drop
      (off.toNat + b.length) = [] := by
    refine List.drop_eq_nil_of_le ?_
    simp only [List.length_append, List.length_replicate]
    omega
  rw [htake, hdrop, List.append_nil, List.append_assoc]
  refine ⟨_, rfl, ?_, ?_, ?_⟩
  · show (f.content ++ (List.replicate (off.toNat - f.len) 0 ++ b)).take (off.toNat + b.length) = _
    refine List.take_of_length_le ?_
    simp only [List.length_append, List.length_replicate]
    omega
  · have h := bytes_readAt_middle f.content (List.replicate (off.toNat - f.len) 0) b
    rw [hcontent, List.length_replicate] at h
    rw [show f.len + ((off.toNat - f.len) + b.length) = off.toNat + b.length by omega] at h
    exact h
  · have h := bytes_readAt_middle (f.content ++ List.replicate (off.toNat - f.len) 0) b []
    rw [List.append_nil, List.append_assoc, List.length_append, hcontent,
      List.length_replicate] at h
    rw [show f.len + (off.toNat - f.len) + (b.length + List.length []) = off.toNat + b.length
      by simp; omega] at h
    rw [show ((f.len + (off.toNat - f.len) : Nat) : Int) = off by omega] at h
    simpa using h

/-- C4 witness: a concrete write one position past the capacity of a
two-byte buffer, producing a one-byte zero gap. -/
theorem c4_gap_zero_fill_witness :
    ∃ f' : Bytes,
      (Bytes.mk [1, 2] 2).WriteAt [5] 4 = some (f', 1, none)
      ∧ f'.content = [1, 2] ++ (List.replicate 2 0 ++ [5])
      ∧ ((f'.ReadAt 2 (2 : Int)).map Prod.fst = some (List.replicate 2 0))
      ∧ ((f'.ReadAt 1 4).map Prod.fst = some [5]) :=
  c4_gap_zero_fill (Bytes.mk [1, 2] 2) [5] 4 (by simp [Bytes.wf]) (by decide)

/-- C8: when a `Setattr` request carries a new size and the backend's
truncate fails, both the read-write and the write-only node return that
failure with the stored attribute record (and the response) completely
untouched — no other requested field is merged first. -/
theorem c8_setattr_truncate_failure
    (stRW : RWState) (stWO : WOState) (req : SetattrRequest) (resp : RespAttr) (e e2 : Err)
    (hsize : req.valid &&& setattrSizeBit ≠ 0)
    (hrw : stRW.dev.Truncate (int64OfUint64 req.size) = Except.error e)
    (hwo : stWO.dev.Truncate (int64OfUint64 req.size) = Except.error e2) :
    rwSetattr stRW req resp = ⟨some e, stRW, resp⟩
    ∧ woSetattr stWO req resp = ⟨some e2, stWO, resp⟩ := by
  constructor
  · simp [rwSetattr, hsize, hrw]
  · simp [woSetattr, hsize, hwo]

/-- C8 witness: a concrete request asking for size 5 on a two-byte
buffer (truncate fails with `EINVAL`) and also asking for a new mode;
neither node state nor response changes. -/
theorem c8_setattr_truncate_failure_witness :
    rwSetattr ⟨Attr.zero, Bytes.mk [1, 2] 2⟩ ⟨9, 7, 0, 0, 0, 0, 5⟩ ⟨0, 0, 0, 0, 0, 0⟩
      = ⟨some Err.einval, ⟨Attr.zero, Bytes.mk [1, 2] 2⟩, ⟨0, 0, 0, 0, 0, 0⟩⟩
    ∧ woSetattr ⟨Attr.zero, WDev.bytes (Bytes.mk [1, 2] 2)⟩ ⟨9, 7, 0, 0, 0, 0, 5⟩ ⟨0, 0, 0, 0, 0, 0⟩
      = ⟨some Err.einval, ⟨Attr.zero, WDev.bytes (Bytes.mk [1, 2] 2)⟩, ⟨0, 0, 0, 0, 0, 0⟩⟩ :=
  c8_setattr_truncate_failure ⟨Attr.zero, Bytes.mk [1, 2] 2⟩
    ⟨Attr.zero, WDev.bytes (Bytes.mk [1, 2] 2)⟩ ⟨9, 7, 0, 0, 0, 0, 5⟩ ⟨0, 0, 0, 0, 0, 0⟩
    Err.einval Err.einval (by decide) (by decide) (by decide)

/-- C10: for every well-formed buffer state and write at a non-negative
offset, `WriteAt` returns the full byte count with a nil error and
leaves the logical length — and the logical content's length — exactly
`off + len(p)`; in particular a write below the current length discards
every previously stored byte at or beyond `off + len(p)`. -/
theorem c10_writeAt_result (f : Bytes) (b : List Nat) (off : Int)
    (hwf : f.wf) (hoff : 0 ≤ off) :
    ∃ f' : Bytes,
      f.WriteAt b off = some (f', b.length, none)
      ∧ f'.len = off.toNat + b.length
      ∧ f'.content.length = off.toNat + b.length := by
  have hwf' : f.len ≤ f.store.length := hwf
  have hcontent : f.content.length = f.len := by
    simp only [Bytes.content, List.length_take]
    omega
  simp only [Bytes.WriteAt]
  split
  · rename_i hc
    have hcap' : f.store.length ≤ off.toNat := by omega
    refine ⟨_, rfl, rfl, ?_⟩
    simp only [Bytes.content, List.length_take, List.length_append, List.length_drop,
      List.length_replicate, hcontent]
    omega
  · rename_i hc
    rw [if_neg (by omega : ¬ off < 0)]
    split
    · rename_i h2
      refine ⟨_, rfl, rfl, ?_⟩
      simp only [Bytes.content, List.length_take, List.length_append, List.length_drop]
      omega
    · rename_i h2
      refine ⟨_, rfl, rfl, ?_⟩
      simp only [Bytes.content, List.length_take, List.length_append]
      omega

/-- C10 witness: a concrete write of two bytes at offset 1 into a
four-byte buffer, leaving logical length 3 and discarding the old
fourth byte. -/
theorem c10_writeAt_result_witness :
    ∃ f' : Bytes,
      (Bytes.mk [1, 2, 3, 4] 4).WriteAt [8, 9] 1 = some (f', 2, none)
      ∧ f'.len = 3
      ∧ f'.content.length = 3 :=
  c10_writeAt_result (Bytes.mk [1, 2, 3, 4] 4) [8, 9] 1 (by simp [Bytes.wf]) (by decide)

/-- C7 witness: a concrete already-consistent file system on which
`Sync` is the identity. -/
theorem c7_sync_idempotent_witness :
    allRefsN (some demoFSBound.id) demoFSBound.root = true ∧ demoFSBound.Sync = demoFSBound :=
  ⟨by decide, (c7_sync_idempotent demoFSBound).1 (by decide)⟩

end Sisyphus
